import Mathlib

/-!
Verification of the sol RTMP server (pkg/rtmp) against its specification.

The Go source is shallowly embedded: bytes are `Nat` values below 256, byte
streams are `List Nat`, Go `uint32` arithmetic is `Nat` arithmetic reduced
modulo `2^32` exactly where the Go code overflows, and fallible reads return
`Option`. Functions keep the names of the Go functions they embed
(message_writer.go, message_reader.go, stream.go, session.go, server.go).
-/

namespace Sol

/-- Modulus of Go uint32 arithmetic. -/
def U32 : Nat := 4294967296

/-- Go PutUint24 (message_writer.go): big-endian 3-byte encoding of the low
24 bits of v, byte i being (v shifted right) masked with 0xFF. -/
def putUint24 (v : Nat) : List Nat := [v / 65536 % 256, v / 256 % 256, v % 256]

/-- Go binary.LittleEndian.PutUint32: little-endian 4-byte encoding. -/
def putUint32LE (v : Nat) : List Nat :=
  [v % 256, v / 256 % 256, v / 65536 % 256, v / 16777216 % 256]

/-- Go binary.BigEndian 4-byte encoding, used for the extended timestamp and
the Set Chunk Size payload. -/
def putUint32BE (v : Nat) : List Nat :=
  [v / 16777216 % 256, v / 65536 % 256, v / 256 % 256, v % 256]

/-- Go readUint24BE (message_reader.go): big-endian 24-bit value of 3 bytes. -/
def readUint24BE (b0 b1 b2 : Nat) : Nat := b0 * 65536 + b1 * 256 + b2

/-- Go binary.LittleEndian.Uint32 of 4 bytes. -/
def readUint32LE (b0 b1 b2 b3 : Nat) : Nat :=
  b0 + b1 * 256 + b2 * 65536 + b3 * 16777216

/-! ## Message writer (message_writer.go)

The writer emits one fmt=0 chunk with a full 11-byte message header and, for
payloads longer than the outbound chunk size, fmt=3 continuation chunks. The
field mw.chunkSize of the Go messageWriter is passed explicitly. -/

/-- Continuation chunks of writeChunkedData (message_writer.go 219-241): for
each further slice of the payload a 1-byte fmt=3 basic header (0xC0 ORed with
the chunk stream id) followed by up to chunkSize payload bytes. The Go loop
advances by min(chunkSize, remaining); for chunkSize = 0 the Go loop would not
terminate, so the model takes at least one byte per chunk. -/
def contChunks (chunkSize csid : Nat) : List Nat → List Nat
  | [] => []
  | b :: rest =>
      (192 + csid) :: b ::
        (rest.take (chunkSize - 1) ++ contChunks chunkSize csid (rest.drop (chunkSize - 1)))
  termination_by l => l.length
  decreasing_by simp [List.length_drop]; omega

/-- Go writeChunkedData (message_writer.go 206-244): payload at most chunkSize
is written whole; otherwise the first chunkSize bytes are written (the fmt=0
header was already emitted by the caller) and the rest goes out as fmt=3
continuation chunks. -/
def writeChunkedData (chunkSize : Nat) (data : List Nat) (csid : Nat) : List Nat :=
  if data.length ≤ chunkSize then data
  else data.take chunkSize ++ contChunks chunkSize csid (data.drop chunkSize)

/-- The 24-bit header timestamp of writeAudioData/writeVideoData
(message_writer.go 105-109, 141-145): timestamps at or above 0xFFFFFF are
replaced by 0xFFFFFF - 1, the extended-timestamp mechanism being disabled. -/
def clampHeaderTimestamp (timestamp : Nat) : Nat :=
  if timestamp ≥ 16777215 then 16777215 - 1 else timestamp

/-- Go writeAudioData (message_writer.go 97-130): basic header fmt=0 csid=4,
11-byte message header (24-bit timestamp, 24-bit length, type 8, stream id 0
little-endian), then the chunked payload. -/
def writeAudioData (chunkSize : Nat) (audioData : List Nat) (timestamp : Nat) : List Nat :=
  [4] ++ putUint24 (clampHeaderTimestamp timestamp) ++ putUint24 audioData.length
    ++ [8] ++ putUint32LE 0 ++ writeChunkedData chunkSize audioData 4

/-- Go writeVideoData (message_writer.go 133-166): as writeAudioData but with
chunk stream id 5 and message type id 9. -/
def writeVideoData (chunkSize : Nat) (videoData : List Nat) (timestamp : Nat) : List Nat :=
  [5] ++ putUint24 (clampHeaderTimestamp timestamp) ++ putUint24 videoData.length
    ++ [9] ++ putUint32LE 0 ++ writeChunkedData chunkSize videoData 5

/-- Go writeSetChunkSize (message_writer.go 54-88): fmt=0 csid=2 basic header,
11-byte header (timestamp 0, length 4, type 1, stream id 0), 4-byte big-endian
payload. Returns the bytes and the new value of mw.chunkSize. -/
def writeSetChunkSize (chunkSize : Nat) : List Nat × Nat :=
  ([2] ++ putUint24 0 ++ putUint24 4 ++ [1] ++ putUint32LE 0 ++ putUint32BE chunkSize,
   chunkSize)

/-! ## Message reader (message_reader.go, messageReaderContext in server.go) -/

/-- Go messageHeader (message_header.go). All fields are uint32/uint8. -/
structure MessageHeader where
  Timestamp : Nat
  length : Nat
  typeId : Nat
  streamId : Nat
deriving Repr, DecidableEq

/-- Go Message: a reassembled message, payload kept as the list of chunk
payload slices (not concatenated). -/
structure Message where
  messageHeader : MessageHeader
  payload : List (List Nat)
deriving Repr, DecidableEq

/-- Association-list model of a Go map with Nat keys (chunk stream ids). -/
def assocGet {α : Type} (l : List (Nat × α)) (k : Nat) : Option α :=
  match l with
  | [] => none
  | (k0, v0) :: rest => if k0 = k then some v0 else assocGet rest k

/-- Go map assignment m[k] = v. -/
def assocSet {α : Type} (l : List (Nat × α)) (k : Nat) (v : α) : List (Nat × α) :=
  match l with
  | [] => [(k, v)]
  | (k0, v0) :: rest => if k0 = k then (k, v) :: rest else (k0, v0) :: assocSet rest k v

/-- Go delete(m, k). -/
def assocDel {α : Type} (l : List (Nat × α)) (k : Nat) : List (Nat × α) :=
  match l with
  | [] => []
  | (k0, v0) :: rest => if k0 = k then rest else (k0, v0) :: assocDel rest k

/-- Go messageReaderContext (server.go): per-chunk-stream last message header,
accumulated payload slices and their total length, and the inbound chunk size.
Go maps are modelled as association lists; Go map iteration order (used by
popMessageIfPossible) is modelled as list order. -/
structure ReaderCtx where
  messageHeaders : List (Nat × MessageHeader)
  payloads : List (Nat × List (List Nat))
  payloadLengths : List (Nat × Nat)
  chunkSize : Nat
deriving Repr

/-- Go newMessageReaderContext: empty maps, DefaultChunkSize = 128. -/
def newMessageReaderContext : ReaderCtx := ⟨[], [], [], 128⟩

/-- Go messageReaderContext.setChunkSize. -/
def setChunkSize (ctx : ReaderCtx) (size : Nat) : ReaderCtx :=
  { ctx with chunkSize := size }

/-- Go messageReaderContext.updateMsgHeader. -/
def updateMsgHeader (ctx : ReaderCtx) (csid : Nat) (h : MessageHeader) : ReaderCtx :=
  { ctx with messageHeaders := assocSet ctx.messageHeaders csid h }

/-- Go messageReaderContext.appendPayload: append the slice and add its length
(uint32 addition) to the per-chunk-stream total. A missing map entry reads as
nil slice / zero length. -/
def appendPayload (ctx : ReaderCtx) (csid : Nat) (payload : List Nat) : ReaderCtx :=
  { ctx with
    payloads := assocSet ctx.payloads csid ((assocGet ctx.payloads csid).getD [] ++ [payload]),
    payloadLengths := assocSet ctx.payloadLengths csid
      (((assocGet ctx.payloadLengths csid).getD 0 + payload.length) % U32) }

/-- Go messageReaderContext.nextChunkSize: remaining = declared length minus
accumulated length in uint32 arithmetic, capped at the chunk size; 0 when no
header is known for the chunk stream. -/
def nextChunkSize (ctx : ReaderCtx) (csid : Nat) : Nat :=
  match assocGet ctx.messageHeaders csid with
  | none => 0
  | some header =>
      let currentLength := (assocGet ctx.payloadLengths csid).getD 0
      let remain := ((header.length + U32) - currentLength % U32) % U32
      if remain > ctx.chunkSize then ctx.chunkSize else remain

/-- Loop body of Go popMessageIfPossible: scan the header map for a chunk
stream whose accumulated payload length equals the declared message length;
return that message, deleting its payload accumulator but keeping its header. -/
def popLoop (ctx : ReaderCtx) : List (Nat × MessageHeader) → Option (Message × ReaderCtx)
  | [] => none
  | (csid, header) :: rest =>
      match assocGet ctx.payloadLengths csid, assocGet ctx.payloads csid with
      | some payloadLength, some payload =>
          if payloadLength = header.length then
            some (⟨header, payload⟩,
              { ctx with
                payloadLengths := assocDel ctx.payloadLengths csid,
                payloads := assocDel ctx.payloads csid })
          else popLoop ctx rest
      | _, _ => popLoop ctx rest

/-- Go messageReaderContext.popMessageIfPossible (error when no message is
complete becomes none). -/
def popMessageIfPossible (ctx : ReaderCtx) : Option (Message × ReaderCtx) :=
  popLoop ctx ctx.messageHeaders

/-- Go io.ReadFull of n bytes from the stream. -/
def readBytes (n : Nat) (input : List Nat) : Option (List Nat × List Nat) :=
  if n ≤ input.length then some (input.take n, input.drop n) else none

/-- Go readBasicHeader (message_reader.go 116-169): fmt is the top 2 bits,
the low 6 bits are the chunk stream id or the 0/1 indirections to the 2- and
3-byte forms, with the range checks of the source. -/
def readBasicHeader : List Nat → Option (Nat × Nat × List Nat)
  | [] => none
  | b :: rest =>
      if b % 64 = 0 then
        match rest with
        | [] => none
        | b2 :: rest2 =>
            if 64 + b2 > 319 then none
            else some (b % 256 / 64, 64 + b2, rest2)
      else if b % 64 = 1 then
        match rest with
        | b2 :: b3 :: rest2 =>
            if 64 + (b2 + 256 * b3) < 320 ∨ 64 + (b2 + 256 * b3) > 65599 then none
            else some (b % 256 / 64, 64 + (b2 + 256 * b3), rest2)
        | _ => none
      else if b % 64 < 2 then none
      else some (b % 256 / 64, b % 64, rest)

/-- Go readExtendedTimestamp: 4 bytes big-endian. -/
def readExtendedTimestamp : List Nat → Option (Nat × List Nat)
  | b0 :: b1 :: b2 :: b3 :: rest =>
      some (b0 * 16777216 + b1 * 65536 + b2 * 256 + b3, rest)
  | _ => none

/-- The fmt=0 monotonicity fix (message_reader.go 204-215): with a previous
header present, a timestamp that went backwards outside the 32-bit wrap region
is forced to previous + 1 (uint32 arithmetic). -/
def fixFmt0Timestamp (prev : Option MessageHeader) (timestamp : Nat) : Nat :=
  match prev with
  | none => timestamp
  | some h =>
      if timestamp < h.Timestamp ∧ (h.Timestamp < 4026531840 ∨ timestamp > 268435456) then
        (h.Timestamp + 1) % U32
      else timestamp

/-- Go readFmt0MessageHeader (message_reader.go 185-220): 11 bytes, optional
extended timestamp when the 24-bit field reads 0xFFFFFF, then the
monotonicity fix against the previous header of the chunk stream. -/
def readFmt0MessageHeader (input : List Nat) (prev : Option MessageHeader) :
    Option (MessageHeader × List Nat) :=
  match input with
  | b0 :: b1 :: b2 :: b3 :: b4 :: b5 :: b6 :: b7 :: b8 :: b9 :: b10 :: rest =>
      let tsField := readUint24BE b0 b1 b2
      let length := readUint24BE b3 b4 b5
      let streamId := readUint32LE b7 b8 b9 b10
      match (if tsField = 16777215 then readExtendedTimestamp rest else some (tsField, rest)) with
      | none => none
      | some (timestamp, rest1) =>
          some (⟨fixFmt0Timestamp prev timestamp, length, b6, streamId⟩, rest1)
  | _ => none

/-- The fmt=1/fmt=2 timestamp computation (message_reader.go 240-255 and
275-288): new = previous + delta in uint32 arithmetic; when the delta is
positive, the sum wrapped below the previous value and the delta is below
0x80000000, the result is clamped to previous + 1 (uint32 arithmetic). -/
def deltaTimestamp (prev delta : Nat) : Nat :=
  let newTimestamp := (prev + delta) % U32
  if delta > 0 ∧ newTimestamp < prev ∧ delta < 2147483648 then (prev + 1) % U32
  else newTimestamp

/-- Go readFmt1MessageHeader (message_reader.go 222-258): 7 bytes (delta,
length, type id), optional extended delta, stream id inherited. A nil previous
header makes the Go code dereference a nil pointer; that is modelled as none. -/
def readFmt1MessageHeader (input : List Nat) (prev : Option MessageHeader) :
    Option (MessageHeader × List Nat) :=
  match input, prev with
  | b0 :: b1 :: b2 :: b3 :: b4 :: b5 :: b6 :: rest, some header =>
      let deltaField := readUint24BE b0 b1 b2
      let length := readUint24BE b3 b4 b5
      match (if deltaField = 16777215 then readExtendedTimestamp rest
             else some (deltaField, rest)) with
      | none => none
      | some (delta, rest1) =>
          some (⟨deltaTimestamp header.Timestamp delta, length, b6, header.streamId⟩, rest1)
  | _, _ => none

/-- Go readFmt2MessageHeader (message_reader.go 260-291): 3-byte delta with
optional extension; length, type id and stream id inherited. -/
def readFmt2MessageHeader (input : List Nat) (prev : Option MessageHeader) :
    Option (MessageHeader × List Nat) :=
  match input, prev with
  | b0 :: b1 :: b2 :: rest, some header =>
      let deltaField := readUint24BE b0 b1 b2
      match (if deltaField = 16777215 then readExtendedTimestamp rest
             else some (deltaField, rest)) with
      | none => none
      | some (delta, rest1) =>
          some (⟨deltaTimestamp header.Timestamp delta, header.length, header.typeId,
                 header.streamId⟩, rest1)
  | _, _ => none

/-- Go readFmt3MessageHeader (message_reader.go 293-296): reads nothing and
copies the previous header. -/
def readFmt3MessageHeader (input : List Nat) (prev : Option MessageHeader) :
    Option (MessageHeader × List Nat) :=
  match prev with
  | some header => some (⟨header.Timestamp, header.length, header.typeId, header.streamId⟩, input)
  | none => none

/-- Go readMessageHeader dispatch on fmt (message_reader.go 171-183). -/
def readMessageHeader (fmt : Nat) (input : List Nat) (prev : Option MessageHeader) :
    Option (MessageHeader × List Nat) :=
  if fmt = 0 then readFmt0MessageHeader input prev
  else if fmt = 1 then readFmt1MessageHeader input prev
  else if fmt = 2 then readFmt2MessageHeader input prev
  else if fmt = 3 then readFmt3MessageHeader input prev
  else none

/-- Go messageReader.readChunk (message_reader.go 89-114): basic header,
message header (with inheritance from the per-chunk-stream table), header
table update, payload of nextChunkSize bytes, payload accumulation. -/
def readChunk (ctx : ReaderCtx) (input : List Nat) : Option (ReaderCtx × List Nat) :=
  match readBasicHeader input with
  | none => none
  | some (fmt, csid, rest) =>
      match readMessageHeader fmt rest (assocGet ctx.messageHeaders csid) with
      | none => none
      | some (mh, rest1) =>
          let ctx1 := updateMsgHeader ctx csid mh
          match readBytes (nextChunkSize ctx1 csid) rest1 with
          | none => none
          | some (payload, rest2) => some (appendPayload ctx1 csid payload, rest2)

/-- Go messageReader.readNextMessage (message_reader.go 74-87): read chunks
until popMessageIfPossible yields a complete message. The Go loop is unbounded;
fuel bounds the number of chunk reads and is chosen large enough in every
theorem below. -/
def readNextMessage : Nat → ReaderCtx → List Nat → Option (Message × ReaderCtx × List Nat)
  | 0, _, _ => none
  | fuel + 1, ctx, input =>
      match readChunk ctx input with
      | none => none
      | some (ctx1, rest) =>
          match popMessageIfPossible ctx1 with
          | some (msg, ctx2) => some (msg, ctx2, rest)
          | none => readNextMessage fuel ctx1 rest

/-! ## Stream record and caches (stream.go) -/

/-- Go VideoFrame (stream.go 23-27): frame class string, timestamp, payload
kept as zero-copy chunk slices. -/
structure VideoFrame where
  frameType : String
  timestamp : Nat
  data : List (List Nat)
deriving Repr, DecidableEq

/-- Go AudioFrame (stream.go 30-34). -/
structure AudioFrame where
  frameType : String
  timestamp : Nat
  data : List (List Nat)
deriving Repr, DecidableEq

/-- Go VideoCache (stream.go 37-40). -/
structure VideoCache where
  sequenceHeader : Option VideoFrame
  gopFrames : List VideoFrame
deriving Repr, DecidableEq

/-- Go AudioCache (stream.go 43-47). -/
structure AudioCache where
  sequenceHeader : Option AudioFrame
  recentFrames : List AudioFrame
  maxFrames : Nat
deriving Repr, DecidableEq

/-- The metadata object cached by SetMetadata. The Go type is map[string]any
carrying arbitrary AMF values; its contents are never inspected by the code
under verification, so it is modelled as an opaque association list. -/
abbrev MetaMap : Type := List (String × String)

/-- Cache state of a Go Stream (stream.go 8-20), omitting the player set and
name which the cache operations do not touch. -/
structure StreamCaches where
  lastMetadata : Option MetaMap
  videoCache : VideoCache
  audioCache : AudioCache
deriving Repr, DecidableEq

/-- Go copyChunks (stream.go 58-65): a deep copy, which on immutable Lean
values is the identity mapping written out structurally. -/
def copyChunks (chunks : List (List Nat)) : List (List Nat) :=
  chunks.map (fun chunk => chunk.map (fun b => b))

/-- Go NewStream cache initialisation (stream.go 81-93): empty caches,
audio maxFrames hardcoded to 10. -/
def newStreamCaches : StreamCaches :=
  ⟨none, ⟨none, []⟩, ⟨none, [], 10⟩⟩

/-- Go addVideoFrame (stream.go 218-263): an AVC sequence header replaces the
cached decoder config; a key frame clears the GOP buffer and is appended; an
AVC NALU is appended unconditionally; an inter frame is appended only to a
non-empty buffer, trimming to the newest 50 frames; other frame classes are
ignored. -/
def addVideoFrame (cache : VideoCache) (frameType : String) (timestamp : Nat)
    (data : List (List Nat)) : VideoCache :=
  if frameType = "AVC sequence header" then
    { cache with sequenceHeader := some ⟨frameType, timestamp, copyChunks data⟩ }
  else if frameType = "key frame" ∨ frameType = "AVC NALU" then
    let base := if frameType = "key frame" then [] else cache.gopFrames
    { cache with gopFrames := base ++ [⟨frameType, timestamp, copyChunks data⟩] }
  else if frameType = "inter frame" then
    if cache.gopFrames.length > 0 then
      let grown := cache.gopFrames ++ [⟨frameType, timestamp, copyChunks data⟩]
      { cache with gopFrames := if grown.length > 50 then grown.drop (grown.length - 50) else grown }
    else cache
  else cache

/-- Go addAudioFrame (stream.go 96-123): a payload whose first slice starts
with an AAC high nibble (10) and a zero second byte becomes the cached AAC
sequence header; anything else is appended to recentFrames, trimmed to the
newest maxFrames entries. -/
def addAudioFrame (cache : AudioCache) (timestamp : Nat) (data : List (List Nat)) : AudioCache :=
  let normal :=
    let grown := cache.recentFrames ++ [⟨"audio", timestamp, copyChunks data⟩]
    { cache with recentFrames :=
        if grown.length > cache.maxFrames then grown.drop (grown.length - cache.maxFrames)
        else grown }
  match data with
  | (b0 :: b1 :: _) :: _ =>
      if b0 / 16 % 16 = 10 ∧ b1 = 0 then
        { cache with sequenceHeader := some ⟨"AAC sequence header", timestamp, copyChunks data⟩ }
      else normal
  | _ => normal

/-- One message handed to a player session by the stream fan-out and priming
code: writeVideoData, writeAudioData or writeScriptData with the recorded
timestamp and payload slices. -/
inductive SentMsg where
  | video (timestamp : Nat) (data : List (List Nat))
  | audio (timestamp : Nat) (data : List (List Nat))
  | script (name : String) (metadata : MetaMap)
deriving Repr, DecidableEq

/-- Go ProcessAudioData (stream.go 126-134): cache the frame through
addAudioFrame, then send the frame to every player in the player set. Returns
the new caches and the per-player sends in player-set order. -/
def ProcessAudioData (s : StreamCaches) (players : List String) (timestamp : Nat)
    (data : List (List Nat)) : StreamCaches × List (String × SentMsg) :=
  ({ s with audioCache := addAudioFrame s.audioCache timestamp data },
   players.map (fun p => (p, SentMsg.audio timestamp data)))

/-- Go SendCachedDataToPlayer (stream.go 363-438): the priming burst, in
source order: cached metadata, AVC sequence header, AAC sequence header, the
GOP frames, then the recent audio frames, each with its cached timestamp. -/
def SendCachedDataToPlayer (s : StreamCaches) : List SentMsg :=
  (match s.lastMetadata with
   | some m => [SentMsg.script "onMetaData" m]
   | none => []) ++
  (match s.videoCache.sequenceHeader with
   | some f => [SentMsg.video f.timestamp f.data]
   | none => []) ++
  (match s.audioCache.sequenceHeader with
   | some f => [SentMsg.audio f.timestamp f.data]
   | none => []) ++
  s.videoCache.gopFrames.map (fun f => SentMsg.video f.timestamp f.data) ++
  s.audioCache.recentFrames.map (fun f => SentMsg.audio f.timestamp f.data)

/-- A sequence of addVideoFrame calls applied to a video cache, oldest first.
Each call is (frameType, timestamp, data). -/
def runVideoFrames (cache : VideoCache) (calls : List (String × Nat × List (List Nat))) :
    VideoCache :=
  calls.foldl (fun c call => addVideoFrame c call.1 call.2.1 call.2.2) cache

/-! ## Session command handlers (session.go) -/

/-- AMF0 values as far as the command handlers inspect them. Go holds them as
any after amf.DecodeAMF0Sequence; Number is float64, used by the handlers only
for type tests and echoing, so its value is carried as an integer. -/
inductive AmfValue where
  | number (x : Int)
  | str (s : String)
  | boolean (b : Bool)
  | nullValue
  | object (fields : List (String × AmfValue))
deriving Repr

/-- Field lookup in an AMF command object (Go map indexing commandObj["app"]). -/
def objGet : List (String × AmfValue) → String → Option AmfValue
  | [], _ => none
  | (k0, v0) :: rest, k => if k0 = k then some v0 else objGet rest k

/-- Session state touched by the command handlers (session.go 13-29), with
the chunk-size fields of the embedded messageWriter (outbound) and
messageReader context (inbound) inlined. -/
structure SessionState where
  sessionId : String
  streamID : Nat
  streamName : String
  appName : String
  isPublishing : Bool
  isPlaying : Bool
  writerChunkSize : Nat
  readerChunkSize : Nat
deriving Repr, DecidableEq

/-- Go newSession / newSessionWithChannel: both chunk sizes start at 128. -/
def newSessionState (sessionId : String) : SessionState :=
  ⟨sessionId, 0, "", "", false, false, 128, 128⟩

/-- Go session.GetFullStreamPath (session.go): empty unless both the app name
and the stream name are set. -/
def GetFullStreamPath (s : SessionState) : String :=
  if s.appName = "" ∨ s.streamName = "" then "" else s.appName ++ "/" ++ s.streamName

/-- Events a session hands to the server event loop (sendEvent). -/
inductive SessionEvent where
  | publishStarted (sessionId streamName : String) (streamId : Nat)
  | playStarted (sessionId streamName : String) (streamId : Nat)
deriving Repr, DecidableEq

/-- Bytes the session writes to its peer: an AMF0 command sequence through
writeCommand, or a Set Chunk Size protocol message through writeSetChunkSize. -/
inductive WireWrite where
  | command (values : List AmfValue)
  | setChunkSizeMsg (size : Nat)
deriving Repr

/-- The onStatus object literal of handlePlay (session.go 177-183). -/
def playStatusObj (fullStreamPath : String) : AmfValue :=
  .object [("level", .str "status"), ("code", .str "NetStream.Play.Start"),
           ("description", .str ("Started playing stream " ++ fullStreamPath)),
           ("details", .str fullStreamPath)]

/-- Go handlePlay (session.go 143-203). Fewer than 3 values or a non-number
transaction id drop the command; the stream name is read from values[3], which
for exactly 3 values panics in Go (modelled as none). The stream name and the
playing flag are set before the path check; on a valid path one PlayStarted
event is emitted, then a single onStatus with code NetStream.Play.Start is
written. -/
def handlePlay (s : SessionState) (values : List AmfValue) :
    Option (SessionState × List SessionEvent × List WireWrite) :=
  if values.length < 3 then some (s, [], [])
  else match values.get? 1 with
  | some (.number _) =>
      match values.get? 3 with
      | none => none
      | some (.str streamName) =>
          let s1 := { s with streamName := streamName, isPlaying := true }
          let fullStreamPath := GetFullStreamPath s1
          if fullStreamPath = "" then some (s1, [], [])
          else
            some (s1,
              [.playStarted s1.sessionId fullStreamPath s1.streamID],
              [.command [.str "onStatus", .number 0, .nullValue, playStatusObj fullStreamPath]])
      | some _ => some (s, [], [])
  | _ => some (s, [], [])

/-- The onStatus object literal of handlePublish (session.go 115-120). -/
def publishStatusObj (fullStreamPath : String) : AmfValue :=
  .object [("level", .str "status"), ("code", .str "NetStream.Publish.Start"),
           ("description", .str ("Started publishing stream " ++ fullStreamPath)),
           ("details", .str fullStreamPath)]

/-- Go handlePublish (session.go 71-140). As handlePlay: the stream name and
the publishing flag are set before the path check; with an empty path the
handler returns with no event and no reply; otherwise PublishStarted is
emitted and one onStatus with code NetStream.Publish.Start is written. The
optional publish type argument only feeds logging and is not modelled. -/
def handlePublish (s : SessionState) (values : List AmfValue) :
    Option (SessionState × List SessionEvent × List WireWrite) :=
  if values.length < 3 then some (s, [], [])
  else match values.get? 1 with
  | some (.number _) =>
      match values.get? 3 with
      | none => none
      | some (.str streamName) =>
          let s1 := { s with streamName := streamName, isPublishing := true }
          let fullStreamPath := GetFullStreamPath s1
          if fullStreamPath = "" then some (s1, [], [])
          else
            some (s1,
              [.publishStarted s1.sessionId fullStreamPath s1.streamID],
              [.command [.str "onStatus", .number 0, .nullValue,
                         publishStatusObj fullStreamPath]])
      | some _ => some (s, [], [])
  | _ => some (s, [], [])

/-- The _result object literal of handleConnect (session.go 916-921). -/
def connectResultObj : AmfValue :=
  .object [("level", .str "status"), ("code", .str "NetConnection.Connect.Success"),
           ("description", .str "Connection succeeded."), ("objectEncoding", .number 0)]

/-- Go handleConnect (session.go 884-941): extract app from the command
object into the session, then write a Set Chunk Size of 4096 (which sets the
outbound writer chunk size) followed by the _result reply. The inbound reader
chunk size is not touched. -/
def handleConnect (s : SessionState) (values : List AmfValue) :
    SessionState × List WireWrite :=
  if values.length < 3 then (s, [])
  else match values.get? 1, values.get? 2 with
  | some (.number txn), some (.object commandObj) =>
      let s1 :=
        match objGet commandObj "app" with
        | some (.str appName) => { s with appName := appName }
        | _ => s
      ({ s1 with writerChunkSize := 4096 },
       [.setChunkSizeMsg 4096,
        .command [.str "_result", .number txn, .nullValue, connectResultObj]])
  | some (.number _), _ => (s, [])
  | _, _ => (s, [])

/-! ## Server-side play registration (server.go) -/

/-- Player-set lookup in the server stream table (stream name to player set;
the other stream fields are untouched by AddPlayer). -/
def streamsGet : List (String × List String) → String → Option (List String)
  | [], _ => none
  | (k0, v0) :: rest, k => if k0 = k then some v0 else streamsGet rest k

/-- Go map assignment on the stream table. -/
def streamsSet : List (String × List String) → String → List String →
    List (String × List String)
  | [], k, v => [(k, v)]
  | (k0, v0) :: rest, k, v =>
      if k0 = k then (k, v) :: rest else (k0, v0) :: streamsSet rest k v

/-- Go Stream.AddPlayer (stream.go 178-184): insert the session into the
player set (Go map insert, idempotent). No capacity test is performed. -/
def AddPlayer (players : List String) (player : String) : List String :=
  if players.contains player then players else players ++ [player]

/-- Go Server.handlePlayStarted (server.go 213-226): get or create the stream
for the path, then AddPlayer. Nothing is written back to the peer here and no
rejection path exists. Returns the stream table and the (empty) list of
writes addressed to the joining player. -/
def handlePlayStarted (streams : List (String × List String)) (streamName player : String) :
    List (String × List String) × List WireWrite :=
  let players := (streamsGet streams streamName).getD []
  (streamsSet streams streamName (AddPlayer players player), [])

/-! ## Chunk-codec lemmas

The decomposition of a payload into the chunk-sized pieces produced by
writeChunkedData and reassembled by the reader. -/

/-- The pieces of a payload split at the chunk size, each piece taking at
least one byte (matching contChunks). -/
def splitChunks (chunkSize : Nat) : List Nat → List (List Nat)
  | [] => []
  | b :: rest =>
      (b :: rest.take (chunkSize - 1)) :: splitChunks chunkSize (rest.drop (chunkSize - 1))
  termination_by l => l.length
  decreasing_by simp [List.length_drop]; omega

theorem splitChunks_flatten (chunkSize : Nat) (l : List Nat) :
    (splitChunks chunkSize l).flatten = l := by
  have key : ∀ (n : Nat) (l : List Nat), l.length ≤ n →
      (splitChunks chunkSize l).flatten = l := by
    intro n
    induction n with
    | zero =>
      intro l hl
      cases l with
      | nil => simp [splitChunks]
      | cons b rest => simp at hl
    | succ n ih =>
      intro l hl
      cases l with
      | nil => simp [splitChunks]
      | cons b rest =>
        rw [splitChunks]
        simp only [List.flatten_cons, List.cons_append]
        rw [ih (rest.drop (chunkSize - 1)) (by simp [List.length_drop] at hl ⊢; omega)]
        simp [List.take_append_drop]
  exact key l.length l (Nat.le_refl _)

theorem readUint24BE_putUint24 (v : Nat) (h : v < 16777216) :
    readUint24BE (v / 65536 % 256) (v / 256 % 256) (v % 256) = v := by
  unfold readUint24BE; omega

theorem readBasicHeader_direct (csid : Nat) (h2 : 2 ≤ csid) (h63 : csid ≤ 63)
    (rest : List Nat) : readBasicHeader (csid :: rest) = some (0, csid, rest) := by
  simp only [readBasicHeader]
  rw [if_neg (show ¬(csid % 64 = 0) by omega), if_neg (show ¬(csid % 64 = 1) by omega),
      if_neg (show ¬(csid % 64 < 2) by omega)]
  have e0 : csid % 256 / 64 = 0 := by omega
  have e1 : csid % 64 = csid := by omega
  rw [e0, e1]

theorem readBasicHeader_cont (csid : Nat) (h2 : 2 ≤ csid) (h63 : csid ≤ 63)
    (rest : List Nat) : readBasicHeader ((192 + csid) :: rest) = some (3, csid, rest) := by
  simp only [readBasicHeader]
  rw [if_neg (show ¬((192 + csid) % 64 = 0) by omega),
      if_neg (show ¬((192 + csid) % 64 = 1) by omega),
      if_neg (show ¬((192 + csid) % 64 < 2) by omega)]
  have e0 : (192 + csid) % 256 / 64 = 3 := by omega
  have e1 : (192 + csid) % 64 = csid := by omega
  rw [e0, e1]

theorem readBytes_exact (p rest : List Nat) : readBytes p.length (p ++ rest) = some (p, rest) := by
  unfold readBytes
  rw [if_pos (by simp)]
  rw [List.take_left, List.drop_left]

theorem readFmt0_writer (ht len tid : Nat) (hht : ht < 16777215) (body : List Nat) :
    readFmt0MessageHeader
      (putUint24 ht ++ putUint24 len ++ [tid] ++ putUint32LE 0 ++ body) none
    = some (⟨ht, len % 16777216, tid, 0⟩, body) := by
  simp only [putUint24, putUint32LE, List.cons_append, List.nil_append,
    readFmt0MessageHeader]
  rw [if_neg (show ¬(readUint24BE (ht / 65536 % 256) (ht / 256 % 256) (ht % 256) = 16777215) by
        unfold readUint24BE; omega)]
  simp only [fixFmt0Timestamp]
  have e1 : readUint24BE (ht / 65536 % 256) (ht / 256 % 256) (ht % 256) = ht := by
    unfold readUint24BE; omega
  have e2 : readUint24BE (len / 65536 % 256) (len / 256 % 256) (len % 256) = len % 16777216 := by
    unfold readUint24BE; omega
  have e3 : readUint32LE (0 % 256) (0 / 256 % 256) (0 / 65536 % 256) (0 / 16777216 % 256) = 0 := by
    unfold readUint32LE; omega
  rw [e1, e2, e3]

theorem assocGet_single {α : Type} (k : Nat) (v : α) : assocGet [(k, v)] k = some v := by
  simp [assocGet]

theorem assocSet_single {α : Type} (k : Nat) (v w : α) : assocSet [(k, v)] k w = [(k, w)] := by
  simp [assocSet]

theorem assocDel_single {α : Type} (k : Nat) (v : α) : assocDel [(k, v)] k = [] := by
  simp [assocDel]

theorem pop_single (csid : Nat) (h : MessageHeader) (accp : List (List Nat)) (m C : Nat) :
    popMessageIfPossible ⟨[(csid, h)], [(csid, accp)], [(csid, m)], C⟩
    = if m = h.length then some (⟨h, accp⟩, ⟨[(csid, h)], [], [], C⟩) else none := by
  simp [popMessageIfPossible, popLoop, assocGet_single, assocDel_single]

theorem readChunk_cont (C csid : Nat) (h2 : 2 ≤ csid) (h63 : csid ≤ 63)
    (h : MessageHeader) (hU : h.length < U32)
    (acc : List (List Nat)) (n : Nat) (hn : n ≤ h.length)
    (p tail : List Nat) (hp : p.length = min C (h.length - n)) :
    readChunk ⟨[(csid, h)], [(csid, acc)], [(csid, n)], C⟩ ((192 + csid) :: (p ++ tail))
    = some (⟨[(csid, h)], [(csid, acc ++ [p])], [(csid, (n + p.length) % U32)], C⟩, tail) := by
  unfold readChunk
  rw [readBasicHeader_cont csid h2 h63]
  have hget : assocGet [(csid, h)] csid = some h := assocGet_single csid h
  simp only [hget]
  rw [show readMessageHeader 3 (p ++ tail) (some h) = some (h, p ++ tail) from by
        simp [readMessageHeader, readFmt3MessageHeader]]
  dsimp only
  have hctx1 : updateMsgHeader ⟨[(csid, h)], [(csid, acc)], [(csid, n)], C⟩ csid h
      = ⟨[(csid, h)], [(csid, acc)], [(csid, n)], C⟩ := by
    simp [updateMsgHeader, assocSet_single]
  rw [hctx1]
  have hsize : nextChunkSize ⟨[(csid, h)], [(csid, acc)], [(csid, n)], C⟩ csid
      = min C (h.length - n) := by
    unfold nextChunkSize
    rw [assocGet_single, assocGet_single]
    simp only [Option.getD_some]
    have hrem : ((h.length + U32) - n % U32) % U32 = h.length - n := by
      simp only [U32] at hU ⊢
      omega
    rw [hrem]
    rcases Nat.lt_or_ge C (h.length - n) with hlt | hge
    · rw [if_pos hlt, Nat.min_eq_left (Nat.le_of_lt hlt)]
    · rw [if_neg (by omega), Nat.min_eq_right hge]
  rw [hsize, ← hp, readBytes_exact]
  simp [appendPayload, assocGet_single, assocSet_single]

theorem readNextMessage_cont (C csid : Nat) (hC : 1 ≤ C) (h2 : 2 ≤ csid) (h63 : csid ≤ 63)
    (h : MessageHeader) (hU : h.length < U32) :
    ∀ (fuel : Nat) (rest : List Nat) (acc : List (List Nat)) (n : Nat),
      rest ≠ [] → n + rest.length = h.length → rest.length ≤ fuel →
      readNextMessage fuel ⟨[(csid, h)], [(csid, acc)], [(csid, n)], C⟩ (contChunks C csid rest)
      = some (⟨h, acc ++ splitChunks C rest⟩, ⟨[(csid, h)], [], [], C⟩, []) := by
  intro fuel
  induction fuel with
  | zero =>
    intro rest acc n hne hsum hf
    exact absurd (List.length_eq_zero.mp (Nat.le_zero.mp hf)) hne
  | succ fuel ih =>
    intro rest acc n hne hsum hf
    cases rest with
    | nil => exact absurd rfl hne
    | cons b t =>
      rw [contChunks]
      rw [show ((192 + csid) :: b ::
            (t.take (C - 1) ++ contChunks C csid (t.drop (C - 1))))
          = (192 + csid) :: ((b :: t.take (C - 1)) ++ contChunks C csid (t.drop (C - 1)))
          from rfl]
      rw [readNextMessage]
      have hlen : (b :: t.take (C - 1)).length = min C (h.length - n) := by
        simp only [List.length_cons, List.length_take]
        simp only [List.length_cons] at hsum
        omega
      rw [readChunk_cont C csid h2 h63 h hU acc n (by omega) _ _ hlen]
      dsimp only
      rw [pop_single]
      have hm : (n + (b :: t.take (C - 1)).length) % U32 = n + min C (h.length - n) := by
        rw [hlen]
        have : n + min C (h.length - n) ≤ h.length := by omega
        simp only [U32] at hU ⊢
        omega
      rw [hm]
      rcases Nat.lt_or_ge C (t.length + 1) with hlt | hge
      · -- more chunks follow this one
        have hmin : min C (h.length - n) = C := by
          simp only [List.length_cons] at hsum; omega
        rw [if_neg (by simp only [List.length_cons] at hsum; omega)]
        have hne2 : t.drop (C - 1) ≠ [] := by
          intro hnil
          have := congrArg List.length hnil
          simp [List.length_drop] at this
          omega
        have hrec := ih (t.drop (C - 1)) (acc ++ [b :: t.take (C - 1)]) (n + min C (h.length - n))
          hne2
          (by simp only [List.length_cons] at hsum; simp [List.length_drop]; omega)
          (by simp only [List.length_cons] at hf; simp [List.length_drop]; omega)
        rw [hrec]
        rw [show splitChunks C (b :: t) = (b :: t.take (C - 1)) :: splitChunks C (t.drop (C - 1))
              from by rw [splitChunks]]
        simp
      · -- final chunk: everything left fits in one chunk
        rw [if_pos (by simp only [List.length_cons] at hsum; omega)]
        have hdrop : t.drop (C - 1) = [] := List.drop_eq_nil_of_le (by omega)
        rw [show splitChunks C (b :: t) = (b :: t.take (C - 1)) :: splitChunks C (t.drop (C - 1))
              from by rw [splitChunks]]
        rw [hdrop]
        rw [show splitChunks C ([] : List Nat) = [] from by rw [splitChunks]]
        rw [show contChunks C csid ([] : List Nat) = [] from by rw [contChunks]]

theorem readBytes_all (p : List Nat) : readBytes p.length p = some (p, []) := by
  have := readBytes_exact p []
  simpa using this

theorem readBytes_front (n : Nat) (p rest : List Nat) (h : p.length = n) :
    readBytes n (p ++ rest) = some (p, rest) := by
  subst h
  exact readBytes_exact p rest

theorem nextChunkSize_first (csid C : Nat) (h : MessageHeader) (hU : h.length < U32) :
    nextChunkSize ⟨[(csid, h)], [], [], C⟩ csid = min C h.length := by
  unfold nextChunkSize
  rw [assocGet_single]
  simp only [assocGet, Option.getD_none]
  have hrem : ((h.length + U32) - 0 % U32) % U32 = h.length := by
    simp only [U32] at hU ⊢
    omega
  rw [hrem]
  rcases Nat.lt_or_ge C h.length with hlt | hge
  · rw [if_pos hlt, Nat.min_eq_left (Nat.le_of_lt hlt)]
  · rw [if_neg (by omega), Nat.min_eq_right hge]

theorem readNextMessage_writer (C csid tid ts : Nat) (payload : List Nat) (hC : 1 ≤ C)
    (h2 : 2 ≤ csid) (h63 : csid ≤ 63) (hts : ts < 16777215)
    (hlen : payload.length < 16777216) :
    (readNextMessage (payload.length + 2) (setChunkSize newMessageReaderContext C)
      (csid :: (putUint24 ts ++ putUint24 payload.length ++ [tid] ++ putUint32LE 0
        ++ writeChunkedData C payload csid))).map
      (fun r => (r.1.messageHeader, r.1.payload.flatten, r.2.2))
    = some (⟨ts, payload.length, tid, 0⟩, payload, []) := by
  have hU : (MessageHeader.mk ts (payload.length % 16777216) tid 0).length < U32 := by
    simp only [U32]; omega
  have hmod : payload.length % 16777216 = payload.length := Nat.mod_eq_of_lt hlen
  rw [show payload.length + 2 = (payload.length + 1) + 1 from rfl]
  rw [readNextMessage]
  unfold readChunk
  rw [show (setChunkSize newMessageReaderContext C) = ⟨[], [], [], C⟩ from rfl]
  rw [readBasicHeader_direct csid h2 h63]
  dsimp only
  rw [show assocGet ([] : List (Nat × MessageHeader)) csid = none from rfl]
  rw [show readMessageHeader 0
        (putUint24 ts ++ putUint24 payload.length ++ [tid] ++ putUint32LE 0
          ++ writeChunkedData C payload csid) none
      = some (⟨ts, payload.length % 16777216, tid, 0⟩, writeChunkedData C payload csid) from by
        rw [readMessageHeader]
        rw [if_pos rfl]
        have := readFmt0_writer ts payload.length tid hts (writeChunkedData C payload csid)
        simpa [List.append_assoc] using this]
  dsimp only
  rw [show updateMsgHeader ⟨[], [], [], C⟩ csid ⟨ts, payload.length % 16777216, tid, 0⟩
      = ⟨[(csid, ⟨ts, payload.length % 16777216, tid, 0⟩)], [], [], C⟩ from by
        simp [updateMsgHeader, assocSet]]
  rw [nextChunkSize_first csid C _ hU]
  rw [show (MessageHeader.mk ts (payload.length % 16777216) tid 0).length
      = payload.length from by simp [hmod]]
  rcases Nat.lt_or_ge C payload.length with hlt | hge
  · -- multi-chunk payload
    rw [show writeChunkedData C payload csid
        = payload.take C ++ contChunks C csid (payload.drop C) from by
          unfold writeChunkedData; rw [if_neg (by omega)]]
    rw [Nat.min_eq_left (Nat.le_of_lt hlt)]
    have hTC : (payload.take C).length = C := by simp [List.length_take]; omega
    rw [readBytes_front C (payload.take C) (contChunks C csid (payload.drop C)) hTC]
    dsimp only
    rw [show appendPayload ⟨[(csid, ⟨ts, payload.length % 16777216, tid, 0⟩)], [], [], C⟩
          csid (payload.take C)
        = ⟨[(csid, ⟨ts, payload.length % 16777216, tid, 0⟩)], [(csid, [payload.take C])],
           [(csid, C)], C⟩ from by
          simp only [appendPayload, assocGet, assocSet, Option.getD_none, List.nil_append,
            Nat.zero_add, hTC]
          have : C % U32 = C := by simp [U32]; omega
          rw [this]]
    rw [pop_single]
    rw [if_neg (by simp only [hmod]; omega)]
    rw [readNextMessage_cont C csid hC h2 h63 _ hU (payload.length + 1) (payload.drop C)
          [payload.take C] C
          (by intro hnil
              have := congrArg List.length hnil
              simp [List.length_drop] at this
              omega)
          (by simp only [hmod, List.length_drop]; omega)
          (by simp only [List.length_drop]; omega)]
    simp [splitChunks_flatten, List.take_append_drop, hmod]
  · -- single-chunk payload
    rw [show writeChunkedData C payload csid = payload from by
          unfold writeChunkedData; rw [if_pos hge]]
    rw [Nat.min_eq_right hge, readBytes_all]
    dsimp only
    rw [show appendPayload ⟨[(csid, ⟨ts, payload.length % 16777216, tid, 0⟩)], [], [], C⟩
          csid payload
        = ⟨[(csid, ⟨ts, payload.length % 16777216, tid, 0⟩)], [(csid, [payload])],
           [(csid, payload.length)], C⟩ from by
          simp only [appendPayload, assocGet, assocSet, Option.getD_none, List.nil_append,
            Nat.zero_add]
          have : payload.length % U32 = payload.length := by simp [U32]; omega
          rw [this]]
    rw [pop_single]
    rw [if_pos (by simp [hmod])]
    simp [hmod]

/-! ## Claim C1: encode/decode round trip -/

/-- C1 (amended): for outbound chunk size C in {128, 4096, 65536}, a message
written by writeAudioData or writeVideoData and decoded by readNextMessage
(with the reader at the same chunk size) is recovered exactly in timestamp,
length, type id, stream id and payload bytes, PROVIDED the timestamp is below
0xFFFFFF (larger timestamps are clamped on the wire, see C10) and the payload
length fits the 24-bit length field. -/
theorem C1_roundtrip (C ts : Nat) (payload : List Nat)
    (hC : C = 128 ∨ C = 4096 ∨ C = 65536)
    (hts : ts < 16777215) (hlen : payload.length < 16777216) :
    (readNextMessage (payload.length + 2) (setChunkSize newMessageReaderContext C)
        (writeAudioData C payload ts)).map
      (fun r => (r.1.messageHeader, r.1.payload.flatten, r.2.2))
      = some (⟨ts, payload.length, 8, 0⟩, payload, [])
    ∧ (readNextMessage (payload.length + 2) (setChunkSize newMessageReaderContext C)
        (writeVideoData C payload ts)).map
      (fun r => (r.1.messageHeader, r.1.payload.flatten, r.2.2))
      = some (⟨ts, payload.length, 9, 0⟩, payload, []) := by
  have hC1 : 1 ≤ C := by rcases hC with rfl | rfl | rfl <;> omega
  have hclamp : clampHeaderTimestamp ts = ts := by
    unfold clampHeaderTimestamp; rw [if_neg (by omega)]
  constructor
  · have key := readNextMessage_writer C 4 8 ts payload hC1 (by omega) (by omega) hts hlen
    unfold writeAudioData
    rw [hclamp]
    simp only [List.cons_append, List.nil_append, List.append_assoc] at key ⊢
    exact key
  · have key := readNextMessage_writer C 5 9 ts payload hC1 (by omega) (by omega) hts hlen
    unfold writeVideoData
    rw [hclamp]
    simp only [List.cons_append, List.nil_append, List.append_assoc] at key ⊢
    exact key

/-- C1 witness: the round trip at chunk size 128, timestamp 1000, payload
[1, 2, 3]. -/
theorem C1_roundtrip_witness :
    (readNextMessage (([1, 2, 3] : List Nat).length + 2)
        (setChunkSize newMessageReaderContext 128) (writeAudioData 128 [1, 2, 3] 1000)).map
      (fun r => (r.1.messageHeader, r.1.payload.flatten, r.2.2))
      = some (⟨1000, ([1, 2, 3] : List Nat).length, 8, 0⟩, [1, 2, 3], [])
    ∧ (readNextMessage (([1, 2, 3] : List Nat).length + 2)
        (setChunkSize newMessageReaderContext 128) (writeVideoData 128 [1, 2, 3] 1000)).map
      (fun r => (r.1.messageHeader, r.1.payload.flatten, r.2.2))
      = some (⟨1000, ([1, 2, 3] : List Nat).length, 9, 0⟩, [1, 2, 3], []) :=
  C1_roundtrip 128 1000 [1, 2, 3] (Or.inl rfl) (by decide) (by decide)

/-- C1 counterexample: at timestamp 0xFFFFFF the round trip does NOT return
the original timestamp; the decoded timestamp is 0xFFFFFE, so the claim as
stated (for every timestamp) is false. -/
theorem C1_counterexample :
    (readNextMessage 3 (setChunkSize newMessageReaderContext 128)
        (writeAudioData 128 [7] 16777215)).map
      (fun r => r.1.messageHeader.Timestamp) = some 16777214
    ∧ (16777214 : Nat) ≠ 16777215 := by
  constructor
  · decide
  · decide

/-! ## Claim C10: outbound timestamps are clamped to 24 bits -/

/-- C10: for timestamps at or above 0xFFFFFF the writers put 0xFFFFFE into
the 24-bit timestamp field and the emitted byte stream is exactly basic
header, 11-byte message header and chunked payload, with no 4-byte extended
timestamp; the value on the wire differs from the requested timestamp. -/
theorem C10_timestamp_clamped (C ts : Nat) (data : List Nat) (hts : ts ≥ 16777215) :
    writeAudioData C data ts
      = [4] ++ putUint24 16777214 ++ putUint24 data.length ++ [8] ++ putUint32LE 0
        ++ writeChunkedData C data 4
    ∧ writeVideoData C data ts
      = [5] ++ putUint24 16777214 ++ putUint24 data.length ++ [9] ++ putUint32LE 0
        ++ writeChunkedData C data 5
    ∧ readUint24BE (16777214 / 65536 % 256) (16777214 / 256 % 256) (16777214 % 256) ≠ ts := by
  have hclamp : clampHeaderTimestamp ts = 16777214 := by
    unfold clampHeaderTimestamp; rw [if_pos hts]
  refine ⟨?_, ?_, ?_⟩
  · unfold writeAudioData; rw [hclamp]
  · unfold writeVideoData; rw [hclamp]
  · unfold readUint24BE; omega

/-- C10 witness at timestamp 0xFFFFFF exactly. -/
theorem C10_timestamp_clamped_witness :
    writeAudioData 128 [9] 16777215
      = [4] ++ putUint24 16777214 ++ putUint24 ([9] : List Nat).length ++ [8] ++ putUint32LE 0
        ++ writeChunkedData 128 [9] 4
    ∧ writeVideoData 128 [9] 16777215
      = [5] ++ putUint24 16777214 ++ putUint24 ([9] : List Nat).length ++ [9] ++ putUint32LE 0
        ++ writeChunkedData 128 [9] 5
    ∧ readUint24BE (16777214 / 65536 % 256) (16777214 / 256 % 256) (16777214 % 256)
      ≠ 16777215 :=
  C10_timestamp_clamped 128 16777215 [9] (by decide)

/-! ## Claim C5: timestamp delta accumulation on one chunk stream

The inputs are conforming RTMP chunk streams built to the wire format the
reader expects: an fmt=0 chunk with absolute timestamp, then fmt=1/fmt=2
chunks carrying deltas, all on chunk stream 3, each message one payload byte
so that every chunk completes a message. The extended-timestamp form is used
whenever the value does not fit 24 bits. -/

/-- An fmt=0 chunk on csid 3 with absolute timestamp t0, length 1, type 8,
stream id 0 and payload byte 0. -/
def mkFmt0Chunk (t0 : Nat) : List Nat :=
  if t0 < 16777215 then
    [3] ++ putUint24 t0 ++ putUint24 1 ++ [8] ++ putUint32LE 0 ++ [0]
  else
    [3] ++ putUint24 16777215 ++ putUint24 1 ++ [8] ++ putUint32LE 0 ++ putUint32BE t0 ++ [0]

/-- A delta chunk on csid 3: fmt=2 when the flag is set, fmt=1 otherwise,
carrying delta d (extended when necessary) and one payload byte. -/
def mkDeltaChunk : Bool × Nat → List Nat
  | (false, d) =>
      if d < 16777215 then (64 * 1 + 3) :: (putUint24 d ++ putUint24 1 ++ [8] ++ [0])
      else (64 * 1 + 3) :: (putUint24 16777215 ++ putUint24 1 ++ [8] ++ putUint32BE d ++ [0])
  | (true, d) =>
      if d < 16777215 then (64 * 2 + 3) :: (putUint24 d ++ [0])
      else (64 * 2 + 3) :: (putUint24 16777215 ++ putUint32BE d ++ [0])

/-- The byte stream of an fmt=0 chunk followed by delta chunks. -/
def deltaStream (t0 : Nat) (ds : List (Bool × Nat)) : List Nat :=
  mkFmt0Chunk t0 ++ (ds.map mkDeltaChunk).flatten

/-- n messages decoded in sequence by repeated readNextMessage calls (the
session read loop of handleRead). -/
def readMessages : Nat → ReaderCtx → List Nat → Option (List Message × ReaderCtx × List Nat)
  | 0, ctx, input => some ([], ctx, input)
  | n + 1, ctx, input =>
      match readNextMessage (input.length + 1) ctx input with
      | none => none
      | some (msg, ctx1, rest) =>
          match readMessages n ctx1 rest with
          | none => none
          | some (msgs, ctx2, rest2) => some (msg :: msgs, ctx2, rest2)

/-- Reader context after decoding a length-1 type-8 message with timestamp t
on chunk stream 3. -/
def ctxAfter (t C : Nat) : ReaderCtx := ⟨[(3, ⟨t, 1, 8, 0⟩)], [], [], C⟩

theorem deltaTimestamp_nowrap (t d : Nat) (h : t + d < U32) :
    deltaTimestamp t d = t + d := by
  unfold deltaTimestamp
  rw [Nat.mod_eq_of_lt h]
  rw [if_neg (by omega)]

theorem readBasicHeader_small (f csid : Nat) (hf : f ≤ 3) (h2 : 2 ≤ csid) (h63 : csid ≤ 63)
    (rest : List Nat) : readBasicHeader ((64 * f + csid) :: rest) = some (f, csid, rest) := by
  simp only [readBasicHeader]
  rw [if_neg (show ¬((64 * f + csid) % 64 = 0) by omega),
      if_neg (show ¬((64 * f + csid) % 64 = 1) by omega),
      if_neg (show ¬((64 * f + csid) % 64 < 2) by omega)]
  have e0 : (64 * f + csid) % 256 / 64 = f := by omega
  have e1 : (64 * f + csid) % 64 = csid := by omega
  rw [e0, e1]

theorem readExtendedTimestamp_putBE (v : Nat) (hv : v < U32) (rest : List Nat) :
    readExtendedTimestamp (putUint32BE v ++ rest) = some (v, rest) := by
  simp only [putUint32BE, List.cons_append, List.nil_append, readExtendedTimestamp]
  have : v / 16777216 % 256 * 16777216 + v / 65536 % 256 * 65536 + v / 256 % 256 * 256 + v % 256
      = v := by
    simp only [U32] at hv
    omega
  rw [this]

theorem readFmt0_ext (t0 len tid : Nat) (hU : t0 < U32)
    (body : List Nat) :
    readFmt0MessageHeader
      (putUint24 16777215 ++ putUint24 len ++ [tid] ++ putUint32LE 0 ++ putUint32BE t0 ++ body)
      none
    = some (⟨t0, len % 16777216, tid, 0⟩, body) := by
  simp only [putUint24, putUint32LE, List.cons_append, List.nil_append, List.append_assoc,
    readFmt0MessageHeader]
  rw [if_pos (by unfold readUint24BE; norm_num)]
  rw [readExtendedTimestamp_putBE t0 hU body]
  simp only [fixFmt0Timestamp]
  have e2 : readUint24BE (len / 65536 % 256) (len / 256 % 256) (len % 256) = len % 16777216 := by
    unfold readUint24BE; omega
  have e3 : readUint32LE (0 % 256) (0 / 256 % 256) (0 / 65536 % 256) (0 / 16777216 % 256) = 0 := by
    unfold readUint32LE; omega
  rw [e2, e3]

theorem readFmt1_eval (d : Nat) (hd : d < 16777215) (h : MessageHeader) (body : List Nat) :
    readFmt1MessageHeader (putUint24 d ++ putUint24 1 ++ [8] ++ body) (some h)
    = some (⟨deltaTimestamp h.Timestamp d, 1, 8, h.streamId⟩, body) := by
  simp only [putUint24, List.cons_append, List.nil_append, readFmt1MessageHeader]
  rw [if_neg (by unfold readUint24BE; omega)]
  have e1 : readUint24BE (d / 65536 % 256) (d / 256 % 256) (d % 256) = d := by
    unfold readUint24BE; omega
  have e2 : readUint24BE (1 / 65536 % 256) (1 / 256 % 256) (1 % 256) = 1 := by
    unfold readUint24BE; norm_num
  rw [e1, e2]

theorem readFmt1_eval_ext (d : Nat) (hd : d < U32)
    (h : MessageHeader) (body : List Nat) :
    readFmt1MessageHeader (putUint24 16777215 ++ putUint24 1 ++ [8] ++ putUint32BE d ++ body)
      (some h)
    = some (⟨deltaTimestamp h.Timestamp d, 1, 8, h.streamId⟩, body) := by
  simp only [putUint24, List.cons_append, List.nil_append, List.append_assoc,
    readFmt1MessageHeader]
  rw [if_pos (by unfold readUint24BE; norm_num)]
  rw [readExtendedTimestamp_putBE d hd body]
  have e2 : readUint24BE (1 / 65536 % 256) (1 / 256 % 256) (1 % 256) = 1 := by
    unfold readUint24BE; norm_num
  rw [e2]

theorem readFmt2_eval (d : Nat) (hd : d < 16777215) (h : MessageHeader) (body : List Nat) :
    readFmt2MessageHeader (putUint24 d ++ body) (some h)
    = some (⟨deltaTimestamp h.Timestamp d, h.length, h.typeId, h.streamId⟩, body) := by
  simp only [putUint24, List.cons_append, List.nil_append, readFmt2MessageHeader]
  rw [if_neg (by unfold readUint24BE; omega)]
  have e1 : readUint24BE (d / 65536 % 256) (d / 256 % 256) (d % 256) = d := by
    unfold readUint24BE; omega
  rw [e1]

theorem readFmt2_eval_ext (d : Nat) (hd : d < U32)
    (h : MessageHeader) (body : List Nat) :
    readFmt2MessageHeader (putUint24 16777215 ++ putUint32BE d ++ body) (some h)
    = some (⟨deltaTimestamp h.Timestamp d, h.length, h.typeId, h.streamId⟩, body) := by
  simp only [putUint24, List.cons_append, List.nil_append, List.append_assoc,
    readFmt2MessageHeader]
  rw [if_pos (by unfold readUint24BE; norm_num)]
  rw [readExtendedTimestamp_putBE d hd body]

theorem assocGet_set {α : Type} (l : List (Nat × α)) (k : Nat) (v : α) :
    assocGet (assocSet l k v) k = some v := by
  induction l with
  | nil => simp [assocGet, assocSet]
  | cons p rest ih =>
    obtain ⟨k0, v0⟩ := p
    by_cases hk : k0 = k
    · subst hk
      simp [assocGet, assocSet]
    · simp [assocGet, assocSet, hk, ih]

theorem nextChunkSize_no_acc (m : List (Nat × MessageHeader))
    (p : List (Nat × List (List Nat))) (csid C : Nat) (h : MessageHeader)
    (hget : assocGet m csid = some h) (hU : h.length < U32) :
    nextChunkSize ⟨m, p, [], C⟩ csid = min C h.length := by
  unfold nextChunkSize
  rw [hget]
  simp only [assocGet, Option.getD_none]
  have hrem : ((h.length + U32) - 0 % U32) % U32 = h.length := by
    simp only [U32] at hU ⊢
    omega
  rw [hrem]
  rcases Nat.lt_or_ge C h.length with hlt | hge
  · rw [if_pos hlt, Nat.min_eq_left (Nat.le_of_lt hlt)]
  · rw [if_neg (by omega), Nat.min_eq_right hge]

theorem readChunk_one_byte (m : List (Nat × MessageHeader)) (fmt : Nat) (hf : fmt ≤ 3)
    (hdrBytes : List Nat) (u : Nat) (rest : List Nat)
    (hhdr : readMessageHeader fmt (hdrBytes ++ (0 :: rest)) (assocGet m 3)
            = some (⟨u, 1, 8, 0⟩, 0 :: rest)) :
    readChunk ⟨m, [], [], 128⟩ ((64 * fmt + 3) :: (hdrBytes ++ (0 :: rest)))
    = some (⟨assocSet m 3 ⟨u, 1, 8, 0⟩, [(3, [[0]])], [(3, 1)], 128⟩, rest) := by
  unfold readChunk
  rw [readBasicHeader_small fmt 3 hf (by omega) (by omega)]
  dsimp only
  rw [hhdr]
  dsimp only
  rw [show updateMsgHeader ⟨m, [], [], 128⟩ 3 ⟨u, 1, 8, 0⟩
      = ⟨assocSet m 3 ⟨u, 1, 8, 0⟩, [], [], 128⟩ from rfl]
  rw [nextChunkSize_no_acc (assocSet m 3 ⟨u, 1, 8, 0⟩) [] 3 128 ⟨u, 1, 8, 0⟩
      (assocGet_set m 3 _) (by simp [U32])]
  rw [show (MessageHeader.mk u 1 8 0).length = 1 from rfl, Nat.min_eq_right (by omega)]
  have kb := readBytes_front 1 [0] rest rfl
  simp only [List.cons_append, List.nil_append] at kb
  rw [kb]
  dsimp only
  rw [show appendPayload ⟨assocSet m 3 ⟨u, 1, 8, 0⟩, [], [], 128⟩ 3 [0]
      = ⟨assocSet m 3 ⟨u, 1, 8, 0⟩, [(3, [[0]])], [(3, 1)], 128⟩ from by
        simp [appendPayload, assocGet, assocSet, U32]]

theorem readNextMessage_once (ctx : ReaderCtx) (input rest : List Nat) (fuel u : Nat)
    (hchunk : readChunk ctx input
      = some (⟨[(3, ⟨u, 1, 8, 0⟩)], [(3, [[0]])], [(3, 1)], 128⟩, rest)) :
    readNextMessage (fuel + 1) ctx input
    = some (⟨⟨u, 1, 8, 0⟩, [[0]]⟩, ctxAfter u 128, rest) := by
  rw [readNextMessage, hchunk]
  dsimp only
  rw [pop_single]
  rw [if_pos rfl]
  rfl

theorem step_fmt0 (t0 : Nat) (hU : t0 < U32) (rest : List Nat) (fuel : Nat) :
    readNextMessage (fuel + 1) newMessageReaderContext (mkFmt0Chunk t0 ++ rest)
    = some (⟨⟨t0, 1, 8, 0⟩, [[0]]⟩, ctxAfter t0 128, rest) := by
  apply readNextMessage_once
  rcases Nat.lt_or_ge t0 16777215 with hlt | hge
  · rw [show mkFmt0Chunk t0 ++ rest
        = (64 * 0 + 3) :: ((putUint24 t0 ++ putUint24 1 ++ [8] ++ putUint32LE 0) ++ (0 :: rest))
        from by
          unfold mkFmt0Chunk
          rw [if_pos hlt]
          simp [List.append_assoc]]
    have key := readChunk_one_byte [] 0 (by omega)
      (putUint24 t0 ++ putUint24 1 ++ [8] ++ putUint32LE 0) t0 rest ?_
    · simpa [assocSet] using key
    · rw [show assocGet ([] : List (Nat × MessageHeader)) 3 = none from rfl]
      rw [readMessageHeader, if_pos rfl]
      have k0 := readFmt0_writer t0 1 8 hlt (0 :: rest)
      simp only [List.append_assoc] at k0 ⊢
      simpa using k0
  · rw [show mkFmt0Chunk t0 ++ rest
        = (64 * 0 + 3) :: ((putUint24 16777215 ++ putUint24 1 ++ [8] ++ putUint32LE 0
            ++ putUint32BE t0) ++ (0 :: rest))
        from by
          unfold mkFmt0Chunk
          rw [if_neg (by omega)]
          simp [List.append_assoc]]
    have key := readChunk_one_byte [] 0 (by omega)
      (putUint24 16777215 ++ putUint24 1 ++ [8] ++ putUint32LE 0 ++ putUint32BE t0) t0 rest ?_
    · simpa [assocSet] using key
    · rw [show assocGet ([] : List (Nat × MessageHeader)) 3 = none from rfl]
      rw [readMessageHeader, if_pos rfl]
      have k0 := readFmt0_ext t0 1 8 hU (0 :: rest)
      simp only [List.append_assoc] at k0 ⊢
      simpa using k0

theorem step_delta (t : Nat) (d : Bool × Nat) (hU : t + d.2 < U32) (rest : List Nat)
    (fuel : Nat) :
    readNextMessage (fuel + 1) (ctxAfter t 128) (mkDeltaChunk d ++ rest)
    = some (⟨⟨t + d.2, 1, 8, 0⟩, [[0]]⟩, ctxAfter (t + d.2) 128, rest) := by
  obtain ⟨b, dv⟩ := d
  simp only at hU ⊢
  have hdelta : deltaTimestamp t dv = t + dv := deltaTimestamp_nowrap t dv hU
  have hprev : assocGet [(3, (⟨t, 1, 8, 0⟩ : MessageHeader))] 3 = some ⟨t, 1, 8, 0⟩ :=
    assocGet_single 3 _
  apply readNextMessage_once
  cases b with
  | false =>
    rcases Nat.lt_or_ge dv 16777215 with hlt | hge
    · rw [show mkDeltaChunk (false, dv) ++ rest
          = (64 * 1 + 3) :: ((putUint24 dv ++ putUint24 1 ++ [8]) ++ (0 :: rest)) from by
            simp [mkDeltaChunk, hlt, List.append_assoc]]
      have key := readChunk_one_byte [(3, ⟨t, 1, 8, 0⟩)] 1 (by omega)
        (putUint24 dv ++ putUint24 1 ++ [8]) (t + dv) rest ?_
      · simpa [assocSet] using key
      · rw [hprev, readMessageHeader, if_neg (by omega), if_pos rfl]
        have k1 := readFmt1_eval dv hlt ⟨t, 1, 8, 0⟩ (0 :: rest)
        simp only [List.append_assoc] at k1 ⊢
        simpa [hdelta] using k1
    · rw [show mkDeltaChunk (false, dv) ++ rest
          = (64 * 1 + 3) :: ((putUint24 16777215 ++ putUint24 1 ++ [8] ++ putUint32BE dv)
              ++ (0 :: rest)) from by
            simp [mkDeltaChunk, show ¬dv < 16777215 from by omega, List.append_assoc]]
      have key := readChunk_one_byte [(3, ⟨t, 1, 8, 0⟩)] 1 (by omega)
        (putUint24 16777215 ++ putUint24 1 ++ [8] ++ putUint32BE dv) (t + dv) rest ?_
      · simpa [assocSet] using key
      · rw [hprev, readMessageHeader, if_neg (by omega), if_pos rfl]
        have k1 := readFmt1_eval_ext dv (by omega) ⟨t, 1, 8, 0⟩ (0 :: rest)
        simp only [List.append_assoc] at k1 ⊢
        simpa [hdelta] using k1
  | true =>
    rcases Nat.lt_or_ge dv 16777215 with hlt | hge
    · rw [show mkDeltaChunk (true, dv) ++ rest
          = (64 * 2 + 3) :: ((putUint24 dv) ++ (0 :: rest)) from by
            simp [mkDeltaChunk, hlt, List.append_assoc]]
      have key := readChunk_one_byte [(3, ⟨t, 1, 8, 0⟩)] 2 (by omega)
        (putUint24 dv) (t + dv) rest ?_
      · simpa [assocSet] using key
      · rw [hprev, readMessageHeader, if_neg (by omega), if_neg (by omega), if_pos rfl]
        have k2 := readFmt2_eval dv hlt ⟨t, 1, 8, 0⟩ (0 :: rest)
        simp only [List.append_assoc] at k2 ⊢
        simpa [hdelta] using k2
    · rw [show mkDeltaChunk (true, dv) ++ rest
          = (64 * 2 + 3) :: ((putUint24 16777215 ++ putUint32BE dv) ++ (0 :: rest)) from by
            simp [mkDeltaChunk, show ¬dv < 16777215 from by omega, List.append_assoc]]
      have key := readChunk_one_byte [(3, ⟨t, 1, 8, 0⟩)] 2 (by omega)
        (putUint24 16777215 ++ putUint32BE dv) (t + dv) rest ?_
      · simpa [assocSet] using key
      · rw [hprev, readMessageHeader, if_neg (by omega), if_neg (by omega), if_pos rfl]
        have k2 := readFmt2_eval_ext dv (by omega) ⟨t, 1, 8, 0⟩ (0 :: rest)
        simp only [List.append_assoc] at k2 ⊢
        simpa [hdelta] using k2

/-- The successive decoded timestamps of a run of delta chunks starting from
previous timestamp t (no 32-bit wrap occurring). -/
def tsList (t : Nat) : List (Bool × Nat) → List Nat
  | [] => []
  | d :: rest => (t + d.2) :: tsList (t + d.2) rest

theorem readMessages_deltas (ds : List (Bool × Nat)) :
    ∀ t : Nat, t + (ds.map (fun d => d.2)).sum < U32 →
      readMessages ds.length (ctxAfter t 128) ((ds.map mkDeltaChunk).flatten)
      = some ((tsList t ds).map (fun u => (⟨⟨u, 1, 8, 0⟩, [[0]]⟩ : Message)),
              ctxAfter (t + (ds.map (fun d => d.2)).sum) 128, []) := by
  induction ds with
  | nil =>
    intro t ht
    simp [readMessages, tsList]
  | cons d rest ih =>
    intro t ht
    simp only [List.map_cons, List.flatten_cons, List.length_cons]
    rw [readMessages]
    rw [step_delta t d (by simp at ht; omega) ((rest.map mkDeltaChunk).flatten)]
    dsimp only
    rw [ih (t + d.2) (by simp at ht ⊢; omega)]
    dsimp only
    simp [tsList, Nat.add_assoc]

theorem scanl_tsList (ds : List (Bool × Nat)) :
    ∀ t : Nat, t + (ds.map (fun d => d.2)).sum < U32 →
      (ds.map (fun d => d.2)).scanl (fun a d => (a + d) % U32) t = t :: tsList t ds := by
  induction ds with
  | nil =>
    intro t ht
    simp [List.scanl, tsList]
  | cons d rest ih =>
    intro t ht
    simp only [List.map_cons, List.scanl, tsList]
    rw [Nat.mod_eq_of_lt (by simp at ht; omega)]
    rw [ih (t + d.2) (by simp at ht ⊢; omega)]

/-- C5 (amended): on one chunk stream, an fmt=0 chunk with absolute timestamp
t0 followed by fmt=1/fmt=2 chunks with deltas d1, ..., dn decodes to
timestamps t0, t0+d1, t0+d1+d2, ... modulo 2^32, PROVIDED no step wraps
32 bits (t0 + d1 + ... + dn < 2^32); on a wrap with a positive delta below
2^31 the reader clamps to previous+1 instead (see the counterexample). -/
theorem C5_delta_accumulation (t0 : Nat) (ds : List (Bool × Nat))
    (hU : t0 + (ds.map (fun d => d.2)).sum < U32) :
    (readMessages (ds.length + 1) newMessageReaderContext (deltaStream t0 ds)).map
      (fun r => r.1.map (fun m => m.messageHeader.Timestamp))
    = some ((ds.map (fun d => d.2)).scanl (fun a d => (a + d) % U32) t0) := by
  rw [readMessages]
  unfold deltaStream
  rw [step_fmt0 t0 (by omega) ((ds.map mkDeltaChunk).flatten)]
  dsimp only
  rw [readMessages_deltas ds t0 hU]
  dsimp only
  rw [scanl_tsList ds t0 hU]
  simp
  rw [show ((fun (m : Message) => m.messageHeader.Timestamp) ∘ fun u =>
        (⟨⟨u, 1, 8, 0⟩, [[0]]⟩ : Message)) = fun u => u from rfl]
  exact List.map_id _

/-- C5 witness: t0 = 10, deltas 20 (fmt=1) then 30 (fmt=2): decoded
timestamps 10, 30, 60. -/
theorem C5_delta_accumulation_witness :
    (readMessages (([(false, 20), (true, 30)] : List (Bool × Nat)).length + 1)
        newMessageReaderContext (deltaStream 10 [(false, 20), (true, 30)])).map
      (fun r => r.1.map (fun m => m.messageHeader.Timestamp))
    = some ((([(false, 20), (true, 30)] : List (Bool × Nat)).map (fun d => d.2)).scanl
        (fun a d => (a + d) % U32) 10) :=
  C5_delta_accumulation 10 [(false, 20), (true, 30)] (by decide)

/-- C5 counterexample: t0 = 0xFFFFFFFF (via extended timestamp), delta 2:
the claim demands (t0 + 2) mod 2^32 = 1, but the reader clamps the wrapped
value to previous+1 = 0. -/
theorem C5_counterexample :
    (readMessages 2 newMessageReaderContext (deltaStream 4294967295 [(false, 2)])).map
      (fun r => r.1.map (fun m => m.messageHeader.Timestamp))
    = some [4294967295, 0]
    ∧ (4294967295 + 2) % U32 = 1
    ∧ (0 : Nat) ≠ 1 := by
  refine ⟨by decide, by decide, by decide⟩

/-! ## Claim C2: GOP buffer invariant -/

theorem copyChunks_id (chunks : List (List Nat)) : copyChunks chunks = chunks := by
  simp [copyChunks]

theorem addVideoFrame_preserve (cache : VideoCache) (ft : String) (ts : Nat)
    (data : List (List Nat))
    (hft : ft = "key frame" ∨ ft = "inter frame" ∨ ft = "AVC sequence header")
    (hlen : cache.gopFrames.length ≤ 50)
    (hmem : ∀ f ∈ cache.gopFrames,
      f.frameType = "key frame" ∨ f.frameType = "inter frame") :
    (addVideoFrame cache ft ts data).gopFrames.length ≤ 50
    ∧ ∀ f ∈ (addVideoFrame cache ft ts data).gopFrames,
        f.frameType = "key frame" ∨ f.frameType = "inter frame" := by
  rcases hft with rfl | rfl | rfl
  · -- key frame: the buffer is reset to the single new frame
    unfold addVideoFrame
    rw [if_neg (by decide), if_pos (Or.inl rfl)]
    simp
  · -- inter frame: appended only when non-empty, then trimmed to 50
    unfold addVideoFrame
    rw [if_neg (by decide), if_neg (by decide), if_pos rfl]
    by_cases hne : cache.gopFrames.length > 0
    · rw [if_pos hne]
      dsimp only
      by_cases hbig :
          (cache.gopFrames ++ [(⟨"inter frame", ts, copyChunks data⟩ : VideoFrame)]).length > 50
      · rw [if_pos hbig]
        constructor
        · simp only [List.length_drop, List.length_append, List.length_cons,
            List.length_nil] at hbig ⊢
          omega
        · intro f hf
          have hf2 := List.mem_of_mem_drop hf
          rcases List.mem_append.mp hf2 with hold | hnew
          · exact hmem f hold
          · simp at hnew
            subst hnew
            exact Or.inr rfl
      · rw [if_neg hbig]
        constructor
        · omega
        · intro f hf
          rcases List.mem_append.mp hf with hold | hnew
          · exact hmem f hold
          · simp at hnew
            subst hnew
            exact Or.inr rfl
    · rw [if_neg hne]
      exact ⟨hlen, hmem⟩
  · -- AVC sequence header: the GOP buffer is untouched
    unfold addVideoFrame
    rw [if_pos rfl]
    exact ⟨hlen, hmem⟩

/-- C2 (amended): starting from the empty cache of NewStream, under any
sequence of addVideoFrame calls whose frame classes are only key frame,
inter frame and AVC sequence header, the GOP buffer never exceeds 50 frames
(a hardcoded bound; the configured gop_cache_size is not consulted) and every
buffered frame is a key frame or an inter frame. The buffer need not begin
with a key frame: the 50-frame trim can evict the leading key frame, and an
AVC NALU call can seed an empty buffer (see the counterexample). -/
theorem C2_gop_invariant (calls : List (String × Nat × List (List Nat)))
    (hcalls : ∀ c ∈ calls,
      c.1 = "key frame" ∨ c.1 = "inter frame" ∨ c.1 = "AVC sequence header") :
    (runVideoFrames newStreamCaches.videoCache calls).gopFrames.length ≤ 50
    ∧ ∀ f ∈ (runVideoFrames newStreamCaches.videoCache calls).gopFrames,
        f.frameType = "key frame" ∨ f.frameType = "inter frame" := by
  have key : ∀ (cs : List (String × Nat × List (List Nat))) (cache : VideoCache),
      (∀ c ∈ cs, c.1 = "key frame" ∨ c.1 = "inter frame" ∨ c.1 = "AVC sequence header") →
      cache.gopFrames.length ≤ 50 →
      (∀ f ∈ cache.gopFrames, f.frameType = "key frame" ∨ f.frameType = "inter frame") →
      (runVideoFrames cache cs).gopFrames.length ≤ 50
      ∧ ∀ f ∈ (runVideoFrames cache cs).gopFrames,
          f.frameType = "key frame" ∨ f.frameType = "inter frame" := by
    intro cs
    induction cs with
    | nil =>
      intro cache _ hlen hmem
      exact ⟨hlen, hmem⟩
    | cons c rest ih =>
      intro cache hcs hlen hmem
      have hstep := addVideoFrame_preserve cache c.1 c.2.1 c.2.2
        (hcs c (List.mem_cons_self c rest)) hlen hmem
      exact ih (addVideoFrame cache c.1 c.2.1 c.2.2)
        (fun d hd => hcs d (List.mem_cons_of_mem c hd)) hstep.1 hstep.2
  exact key calls newStreamCaches.videoCache hcalls (by simp [newStreamCaches])
    (by simp [newStreamCaches])

/-- C2 witness: one key frame followed by three inter frames. -/
theorem C2_gop_invariant_witness :
    (runVideoFrames newStreamCaches.videoCache
        [("key frame", 0, []), ("inter frame", 40, []), ("inter frame", 80, []),
         ("inter frame", 120, [])]).gopFrames.length ≤ 50
    ∧ ∀ f ∈ (runVideoFrames newStreamCaches.videoCache
        [("key frame", 0, []), ("inter frame", 40, []), ("inter frame", 80, []),
         ("inter frame", 120, [])]).gopFrames,
        f.frameType = "key frame" ∨ f.frameType = "inter frame" :=
  C2_gop_invariant
    [("key frame", 0, []), ("inter frame", 40, []), ("inter frame", 80, []),
     ("inter frame", 120, [])]
    (by decide)

set_option maxRecDepth 8192 in
/-- C2 counterexample: (a) a single AVC NALU call leaves a non-empty buffer
whose first entry is not a key frame; (b) a key frame followed by 50 inter
frames trims the key frame away, so the oldest entry is an inter frame;
(c) 51 AVC NALU calls leave 51 > 50 frames, and with the default configured
gop_cache_size of 10 even run (b) holds 50 > 10 frames. -/
theorem C2_counterexample :
    ((runVideoFrames newStreamCaches.videoCache
        [("AVC NALU", 0, [])]).gopFrames.map (fun f => f.frameType) = ["AVC NALU"]
      ∧ "AVC NALU" ≠ "key frame")
    ∧ ((runVideoFrames newStreamCaches.videoCache
        (("key frame", 0, ([] : List (List Nat)))
          :: List.replicate 50 ("inter frame", 1, []))).gopFrames.head?.map
            (fun f => f.frameType) = some "inter frame"
      ∧ "inter frame" ≠ "key frame")
    ∧ (runVideoFrames newStreamCaches.videoCache
        (List.replicate 51 ("AVC NALU", 0, []))).gopFrames.length = 51
    ∧ ¬(51 ≤ 50) ∧ ¬(50 ≤ 10) := by
  refine ⟨⟨by decide, by decide⟩, ⟨by decide, by decide⟩, by decide, by decide, by decide⟩

/-! ## Claim C3: priming burst order -/

/-- C3: a player joining a stream whose caches hold metadata, an AVC sequence
header, an AAC sequence header and k GOP frames receives exactly, as the
first 3 + k messages: the onMetaData script, the AVC header as video, the
AAC header as audio, then the GOP frames in order, each with its cached
timestamp. -/
theorem C3_priming_order (s : StreamCaches) (m : MetaMap) (vf : VideoFrame)
    (af : AudioFrame) (gs : List VideoFrame)
    (hm : s.lastMetadata = some m) (hv : s.videoCache.sequenceHeader = some vf)
    (ha : s.audioCache.sequenceHeader = some af) (hg : s.videoCache.gopFrames = gs)
    (_hk : gs ≠ []) :
    (SendCachedDataToPlayer s).take (3 + gs.length)
    = SentMsg.script "onMetaData" m :: SentMsg.video vf.timestamp vf.data
      :: SentMsg.audio af.timestamp af.data
      :: gs.map (fun f => SentMsg.video f.timestamp f.data) := by
  unfold SendCachedDataToPlayer
  rw [hm, hv, ha, hg]
  simp only [List.cons_append, List.nil_append]
  rw [Nat.add_comm 3 gs.length]
  simp only [List.take_succ_cons]
  rw [List.take_left' (by simp)]

/-- C3 witness: a stream with metadata, both sequence headers and a 2-frame
GOP primes a joining player with exactly those five messages in order. -/
theorem C3_priming_order_witness :
    (SendCachedDataToPlayer
        ⟨some [("duration", "0")],
         ⟨some ⟨"AVC sequence header", 0, [[23, 0]]⟩,
          [⟨"key frame", 40, [[23, 1]]⟩, ⟨"inter frame", 80, [[39, 1]]⟩]⟩,
         ⟨some ⟨"AAC sequence header", 0, [[175, 0]]⟩, [], 10⟩⟩).take
      (3 + ([⟨"key frame", 40, [[23, 1]]⟩,
             ⟨"inter frame", 80, [[39, 1]]⟩] : List VideoFrame).length)
    = SentMsg.script "onMetaData" [("duration", "0")]
      :: SentMsg.video (VideoFrame.mk "AVC sequence header" 0 [[23, 0]]).timestamp
           (VideoFrame.mk "AVC sequence header" 0 [[23, 0]]).data
      :: SentMsg.audio (AudioFrame.mk "AAC sequence header" 0 [[175, 0]]).timestamp
           (AudioFrame.mk "AAC sequence header" 0 [[175, 0]]).data
      :: ([⟨"key frame", 40, [[23, 1]]⟩,
           ⟨"inter frame", 80, [[39, 1]]⟩] : List VideoFrame).map
            (fun f => SentMsg.video f.timestamp f.data) :=
  C3_priming_order
    ⟨some [("duration", "0")],
     ⟨some ⟨"AVC sequence header", 0, [[23, 0]]⟩,
      [⟨"key frame", 40, [[23, 1]]⟩, ⟨"inter frame", 80, [[39, 1]]⟩]⟩,
     ⟨some ⟨"AAC sequence header", 0, [[175, 0]]⟩, [], 10⟩⟩
    [("duration", "0")] ⟨"AVC sequence header", 0, [[23, 0]]⟩
    ⟨"AAC sequence header", 0, [[175, 0]]⟩
    [⟨"key frame", 40, [[23, 1]]⟩, ⟨"inter frame", 80, [[39, 1]]⟩]
    rfl rfl rfl rfl (by decide)

/-! ## Claim C4: AAC sequence header handling -/

/-- C4 (amended): an audio payload whose first byte has high nibble 10 (AAC)
and whose second byte is 0 is stored as the AAC sequence header, is not added
to the recent-audio buffer and leaves the video GOP cache untouched — but the
frame IS forwarded to every currently attached player (ProcessAudioData fans
out unconditionally; the claimed skip does not exist in the code). -/
theorem C4_aac_config (s : StreamCaches) (players : List String) (ts b0 b1 : Nat)
    (c0rest : List Nat) (drest : List (List Nat))
    (hn : b0 / 16 % 16 = 10) (hz : b1 = 0) :
    (ProcessAudioData s players ts ((b0 :: b1 :: c0rest) :: drest)).1.audioCache.sequenceHeader
      = some ⟨"AAC sequence header", ts, (b0 :: b1 :: c0rest) :: drest⟩
    ∧ (ProcessAudioData s players ts ((b0 :: b1 :: c0rest) :: drest)).1.audioCache.recentFrames
      = s.audioCache.recentFrames
    ∧ (ProcessAudioData s players ts ((b0 :: b1 :: c0rest) :: drest)).1.videoCache
      = s.videoCache
    ∧ (ProcessAudioData s players ts ((b0 :: b1 :: c0rest) :: drest)).2
      = players.map (fun p => (p, SentMsg.audio ts ((b0 :: b1 :: c0rest) :: drest))) := by
  unfold ProcessAudioData addAudioFrame
  dsimp only
  rw [if_pos ⟨hn, hz⟩]
  simp [copyChunks_id]

/-- C4 witness: payload 0xAF 0x00, one attached player. -/
theorem C4_aac_config_witness :
    (ProcessAudioData newStreamCaches ["p1"] 5 ((175 :: 0 :: []) :: [])).1.audioCache.sequenceHeader
      = some ⟨"AAC sequence header", 5, (175 :: 0 :: []) :: []⟩
    ∧ (ProcessAudioData newStreamCaches ["p1"] 5
        ((175 :: 0 :: []) :: [])).1.audioCache.recentFrames
      = newStreamCaches.audioCache.recentFrames
    ∧ (ProcessAudioData newStreamCaches ["p1"] 5 ((175 :: 0 :: []) :: [])).1.videoCache
      = newStreamCaches.videoCache
    ∧ (ProcessAudioData newStreamCaches ["p1"] 5 ((175 :: 0 :: []) :: [])).2
      = (["p1"] : List String).map
          (fun p => (p, SentMsg.audio 5 ((175 :: 0 :: []) :: []))) :=
  C4_aac_config newStreamCaches ["p1"] 5 175 0 [] [] (by decide) rfl

/-- C4 counterexample: the AAC sequence header frame IS sent to the attached
player, so the claim that this particular frame is not forwarded is false. -/
theorem C4_counterexample :
    (ProcessAudioData newStreamCaches ["p1"] 5 [[175, 0]]).2
      = [("p1", SentMsg.audio 5 [[175, 0]])]
    ∧ [("p1", SentMsg.audio 5 [[175, 0]])] ≠ ([] : List (String × SentMsg)) := by
  refine ⟨rfl, by simp⟩

/-! ## Claim C6: onStatus notifications of handlePlay -/

/-- C6 (amended): a well-formed play command on a session with an app name
produces exactly ONE onStatus notification, with code NetStream.Play.Start;
no NetStream.Play.Reset notification is sent (the PlayStarted event is
emitted before the onStatus is written). -/
theorem C6_play_single_onStatus (s : SessionState) (values : List AmfValue)
    (txn : Int) (name : String)
    (hlen : 4 ≤ values.length) (h1 : values.get? 1 = some (.number txn))
    (h3 : values.get? 3 = some (.str name)) (happ : s.appName ≠ "") (hname : name ≠ "") :
    handlePlay s values
    = some ({ s with streamName := name, isPlaying := true },
        [.playStarted s.sessionId (s.appName ++ "/" ++ name) s.streamID],
        [.command [.str "onStatus", .number 0, .nullValue,
                   playStatusObj (s.appName ++ "/" ++ name)]]) := by
  unfold handlePlay
  rw [if_neg (by omega), h1, h3]
  dsimp only
  have hpath : GetFullStreamPath { s with streamName := name, isPlaying := true }
      = s.appName ++ "/" ++ name := by
    unfold GetFullStreamPath
    rw [if_neg (by simp [happ, hname])]
  rw [hpath]
  rw [if_neg (by
    intro hcon
    have := congrArg String.length hcon
    simp [String.length_append] at this
    exact absurd this.1.2 (by decide))]

/-- C6 witness: a concrete play on a connected session. -/
theorem C6_play_single_onStatus_witness :
    handlePlay { newSessionState "sess" with appName := "live" }
      [.str "play", .number 8, .nullValue, .str "key"]
    = some ({ { newSessionState "sess" with appName := "live" } with
              streamName := "key", isPlaying := true },
        [.playStarted ({ newSessionState "sess" with appName := "live" } :
            SessionState).sessionId
          (({ newSessionState "sess" with appName := "live" } :
              SessionState).appName ++ "/" ++ "key")
          ({ newSessionState "sess" with appName := "live" } : SessionState).streamID],
        [.command [.str "onStatus", .number 0, .nullValue,
          playStatusObj (({ newSessionState "sess" with appName := "live" } :
              SessionState).appName ++ "/" ++ "key")]]) :=
  C6_play_single_onStatus { newSessionState "sess" with appName := "live" }
    [.str "play", .number 8, .nullValue, .str "key"] 8 "key"
    (by decide) rfl rfl (by decide) (by decide)

/-- C6 counterexample: the play handler writes exactly one command, an
onStatus with code NetStream.Play.Start; it never writes two, and no
NetStream.Play.Reset exists in its output. -/
theorem C6_counterexample :
    (handlePlay { newSessionState "sess" with appName := "live" }
        [.str "play", .number 8, .nullValue, .str "key"]).map
      (fun r => r.2.2.length) = some 1
    ∧ (1 : Nat) ≠ 2 := by
  refine ⟨rfl, by decide⟩

/-! ## Claim C8: connect handling and chunk sizes -/

/-- C8 (amended): a well-formed connect makes the server write a Set-Chunk-Size
of 4096 strictly before the _result reply and raises the session's OUTBOUND
writer chunk size to 4096; the session's INBOUND reader chunk size is NOT
updated (it stays at its previous value, 128 for a fresh session, until the
peer sends its own Set Chunk Size). -/
theorem C8_connect_chunk_size (s : SessionState) (values : List AmfValue)
    (txn : Int) (obj : List (String × AmfValue))
    (hlen : 3 ≤ values.length) (h1 : values.get? 1 = some (.number txn))
    (h2 : values.get? 2 = some (.object obj)) :
    (handleConnect s values).2
      = [.setChunkSizeMsg 4096,
         .command [.str "_result", .number txn, .nullValue, connectResultObj]]
    ∧ (handleConnect s values).1.writerChunkSize = 4096
    ∧ (handleConnect s values).1.readerChunkSize = s.readerChunkSize := by
  unfold handleConnect
  rw [if_neg (by omega), h1, h2]
  dsimp only
  cases hg : objGet obj "app" with
  | none => exact ⟨rfl, rfl, rfl⟩
  | some v => cases v <;> exact ⟨rfl, rfl, rfl⟩

/-- C8 witness: a concrete connect with app "live" on a fresh session. -/
theorem C8_connect_chunk_size_witness :
    (handleConnect (newSessionState "sess")
        [.str "connect", .number 1, .object [("app", .str "live")]]).2
      = [.setChunkSizeMsg 4096,
         .command [.str "_result", .number 1, .nullValue, connectResultObj]]
    ∧ (handleConnect (newSessionState "sess")
        [.str "connect", .number 1, .object [("app", .str "live")]]).1.writerChunkSize = 4096
    ∧ (handleConnect (newSessionState "sess")
        [.str "connect", .number 1, .object [("app", .str "live")]]).1.readerChunkSize
      = (newSessionState "sess").readerChunkSize :=
  C8_connect_chunk_size (newSessionState "sess")
    [.str "connect", .number 1, .object [("app", .str "live")]] 1
    [("app", .str "live")] (by decide) rfl rfl

/-- C8 counterexample: after a connect on a fresh session the inbound reader
chunk size is still 128, not the 4096 the claim asserts. -/
theorem C8_counterexample :
    (handleConnect (newSessionState "sess")
        [.str "connect", .number 1, .object [("app", .str "live")]]).1.readerChunkSize = 128
    ∧ (128 : Nat) ≠ 4096 := by
  refine ⟨rfl, by decide⟩

/-! ## Claim C9: publish with missing app name -/

/-- C9 (amended): a well-formed publish received while the session's app name
is empty emits no PublishStarted event and writes no reply — but the session
state is NOT unchanged: the handler has already set the stream name and the
publishing flag before the path check that drops the command. -/
theorem C9_publish_missing_app (s : SessionState) (values : List AmfValue)
    (txn : Int) (name : String)
    (hlen : 4 ≤ values.length) (h1 : values.get? 1 = some (.number txn))
    (h3 : values.get? 3 = some (.str name)) (happ : s.appName = "") :
    handlePublish s values
    = some ({ s with streamName := name, isPublishing := true }, [], []) := by
  unfold handlePublish
  rw [if_neg (by omega), h1, h3]
  dsimp only
  rw [show GetFullStreamPath { s with streamName := name, isPublishing := true } = "" from by
        unfold GetFullStreamPath
        rw [if_pos (Or.inl happ)]]
  rw [if_pos rfl]

/-- C9 witness: publish on a session that never received connect. -/
theorem C9_publish_missing_app_witness :
    handlePublish (newSessionState "sess")
      [.str "publish", .number 3, .nullValue, .str "key"]
    = some ({ newSessionState "sess" with streamName := "key", isPublishing := true },
        [], []) :=
  C9_publish_missing_app (newSessionState "sess")
    [.str "publish", .number 3, .nullValue, .str "key"] 3 "key"
    (by decide) rfl rfl rfl

/-- C9 counterexample: the session state changes — the publishing flag flips
from false to true even though the command was dropped. -/
theorem C9_counterexample :
    (handlePublish (newSessionState "sess")
        [.str "publish", .number 3, .nullValue, .str "key"]).map
      (fun r => (r.1.isPublishing, r.2.1, r.2.2.length)) = some (true, [], 0)
    ∧ (newSessionState "sess").isPublishing = false
    ∧ true ≠ false := by
  refine ⟨rfl, rfl, by decide⟩

/-! ## Claim C7: max players per path -/

/-- C7: no capacity check exists. With two players already attached (the
max_players_per_path = 2 scenario of the spec), a third play is nevertheless
accepted: the player set grows to 3 and nothing at all — in particular no
NetStream.Play.Failed onStatus — is written to the peer. This contradicts the
claim and the configured MaxPlayersPerStream, which server.go threads through
to the stream but which no code consults. -/
theorem C7_no_capacity_check :
    streamsGet (handlePlayStarted [("live/key", ["p1", "p2"])] "live/key" "p3").1 "live/key"
      = some ["p1", "p2", "p3"]
    ∧ (handlePlayStarted [("live/key", ["p1", "p2"])] "live/key" "p3").2 = []
    ∧ (["p1", "p2", "p3"] : List String).length ≠ 2 := by
  refine ⟨rfl, rfl, by decide⟩

end Sol

